import Mathlib

/- Verification of the frame-buffer compositing core of anim-in-terminal.

   The definitions below are shallow embeddings of the Go sources
   `internal/cybercube/cybercube.go` and `internal/rain/rain.go`.
   Go `float64` values are modelled as exact fractions (`Fr` below): the
   code paths verified here only add, multiply, compare, truncate and
   round such values, never in ways where rounding of IEEE doubles could
   change a comparison that a claim depends on.  Go byte strings written
   to the terminal are modelled as `List Char` (every emitted byte is
   ASCII).  Go slices are `List`s; in-place element assignment is
   `listUpdate`.  `math/rand`'s global generator is modelled as an oracle
   stream of pre-drawn values (`Rain.Rng`). -/

/-- In-place update of one slice element, `l[i] = f l[i]` in Go. -/
def listUpdate {α : Type} (l : List α) (i : Nat) (f : α → α) : List α :=
  match l, i with
  | [], _ => []
  | a :: as, 0 => f a :: as
  | a :: as, i + 1 => a :: listUpdate as i f

/-- Exact fraction standing in for a Go `float64` value.  All constructors
    used in this development keep the denominator positive; the operations
    never normalise, so they are kernel-computable. -/
structure Fr where
  num : Int
  den : Int
deriving DecidableEq

namespace Fr

def ofInt (n : Int) : Fr := ⟨n, 1⟩

instance : LE Fr := ⟨fun a b => a.num * b.den ≤ b.num * a.den⟩

instance : LT Fr := ⟨fun a b => a.num * b.den < b.num * a.den⟩

instance (a b : Fr) : Decidable (a ≤ b) :=
  inferInstanceAs (Decidable (a.num * b.den ≤ b.num * a.den))

instance (a b : Fr) : Decidable (a < b) :=
  inferInstanceAs (Decidable (a.num * b.den < b.num * a.den))

def add (a b : Fr) : Fr := ⟨a.num * b.den + b.num * a.den, a.den * b.den⟩

def sub (a b : Fr) : Fr := ⟨a.num * b.den - b.num * a.den, a.den * b.den⟩

def mul (a b : Fr) : Fr := ⟨a.num * b.num, a.den * b.den⟩

def neg (a : Fr) : Fr := ⟨-a.num, a.den⟩

/-- Go `int(f)`: truncation toward zero (for positive denominators). -/
def trunc (a : Fr) : Int := a.num.tdiv a.den

/-- Go `math.Round`: round half away from zero (for positive denominators). -/
def round (a : Fr) : Int :=
  if 0 ≤ a.num then (2 * a.num + a.den).tdiv (2 * a.den)
  else -((2 * (-a.num) + a.den).tdiv (2 * a.den))

end Fr

/-- `math.MaxFloat64` = 2^1024 - 2^971, written out so the kernel can
    compare against it directly. -/
def maxFloat64 : Fr :=
  ⟨179769313486231570814527423731704356798070567525844996598917476803157260780028538760589558632766878171540458953514382464234321326889464182768467546703537516986049910576551282076245490090389328944075868508455133942304583236903222948165808559332123348274797826204144723168738177180919299881250404026184124858368, 1⟩

/- ---------------------------------------------------------------------
   internal/cybercube/cybercube.go: the depth-aware grid buffer.
   --------------------------------------------------------------------- -/

namespace Cyber

/-- `internal/term`: `term.Reset`. -/
def termReset : String := "\x1b[0m"

/-- `internal/term`: `term.Home`. -/
def termHome : String := "\x1b[H"

/-- cybercube.go `type cell struct`: glyph, color, depth. -/
structure Cell where
  glyph : Char
  color : String
  depth : Fr
deriving DecidableEq

/-- The cell state established by `Clear`: space glyph, no color,
    `math.MaxFloat64` depth. -/
def blankCell : Cell := ⟨' ', "", maxFloat64⟩

/-- cybercube.go `type gridBuffer struct`. -/
structure GridBuffer where
  width : Int
  height : Int
  cells : List (List Cell)
deriving DecidableEq

/-- `newGrid`: allocates `height` rows of `width` cells and calls `Clear`,
    so every cell starts as `blankCell`. -/
def newGrid (width height : Int) : GridBuffer :=
  ⟨width, height, List.replicate height.toNat (List.replicate width.toNat blankCell)⟩

/-- `gridBuffer.Clear`: resets every cell (the Go loop walks all indices
    `y < height`, `x < width`; for the well-formed grids the program
    constructs this is a per-cell map). -/
def GridBuffer.Clear (g : GridBuffer) : GridBuffer :=
  { g with cells := g.cells.map (fun row => row.map (fun _ => blankCell)) }

/-- The cell stored at column `x`, row `y` (`g.cells[y][x]`). -/
def cellAt (g : GridBuffer) (x y : Nat) : Cell :=
  (g.cells.getD y []).getD x blankCell

/-- `gridBuffer.Set`: bounds-checked, depth-compared write.  The Go guard
    `current.glyph != ' ' && depth >= current.depth` rejects the write. -/
def GridBuffer.Set (g : GridBuffer) (x y : Int) (glyph : Char) (color : String)
    (depth : Fr) : GridBuffer :=
  if y < 0 ∨ g.height ≤ y then g
  else if x < 0 ∨ g.width ≤ x then g
  else
    let current := cellAt g x.toNat y.toNat
    if current.glyph ≠ ' ' ∧ current.depth ≤ depth then g
    else
      { g with
        cells := listUpdate g.cells y.toNat
          (fun row => listUpdate row x.toNat (fun _ => ⟨glyph, color, depth⟩)) }

/-- `gridBuffer.SetIfEmpty`: bounds-checked write that fires only when the
    target still holds the space sentinel; it records depth
    `math.MaxFloat64`. -/
def GridBuffer.SetIfEmpty (g : GridBuffer) (x y : Int) (glyph : Char)
    (color : String) : GridBuffer :=
  if y < 0 ∨ g.height ≤ y then g
  else if x < 0 ∨ g.width ≤ x then g
  else if (cellAt g x.toNat y.toNat).glyph = ' ' then
    { g with
      cells := listUpdate g.cells y.toNat
        (fun row => listUpdate row x.toNat (fun _ => ⟨glyph, color, maxFloat64⟩)) }
  else g

/-- `gridBuffer.Render`: the byte stream built in the strings.Builder —
    home escape, then per row: per cell an optional color escape and the
    glyph byte, then `term.Reset` and a newline. -/
def GridBuffer.Render (g : GridBuffer) : List Char :=
  g.cells.foldl
    (fun acc row =>
      (row.foldl
        (fun a c => (a ++ (if c.color ≠ "" then c.color.data else [])) ++ [c.glyph])
        acc) ++ termReset.data ++ ['\n'])
    termHome.data

/-- Modelled from the spec: the run-minimized serializer the spec describes
    ("if its resolved color differs from the color already in effect in the
    current run of identical color, emit the color escape").  Only used to
    compare against `Render`. -/
def RenderMinimized (g : GridBuffer) : List Char :=
  g.cells.foldl
    (fun acc row =>
      (row.foldl
        (fun (p : List Char × String) c =>
          if c.color ≠ "" ∧ c.color ≠ p.2 then (p.1 ++ c.color.data ++ [c.glyph], c.color)
          else (p.1 ++ [c.glyph], p.2))
        (acc, "")).1 ++ termReset.data ++ ['\n'])
    termHome.data

/-- One frame-buffer mutation: the operations scenes may perform. -/
inductive Op where
  | set (x y : Int) (glyph : Char) (color : String) (depth : Fr)
  | setIfEmpty (x y : Int) (glyph : Char) (color : String)
  | clear
deriving DecidableEq

def applyOp (g : GridBuffer) : Op → GridBuffer
  | .set x y glyph color depth => g.Set x y glyph color depth
  | .setIfEmpty x y glyph color => g.SetIfEmpty x y glyph color
  | .clear => g.Clear

/-- A grid as it stands after any sequence of scene writes in one frame. -/
def applyOps (g : GridBuffer) (ops : List Op) : GridBuffer :=
  ops.foldl applyOp g

/-- Well-formedness: the cell array matches the stored dimensions. -/
def WF (g : GridBuffer) : Prop :=
  g.cells.length = g.height.toNat ∧ ∀ row ∈ g.cells, row.length = g.width.toNat

/-- `edgePalette[0]`, a sample scene color. -/
def colorA : String := "\x1b[38;5;45m"

/-- `edgePalette[1]`, a second sample scene color. -/
def colorB : String := "\x1b[38;5;81m"

/-- The bytes `Render` writes for one cell: optional color escape, then
    the glyph byte. -/
def cellBytes (c : Cell) : List Char :=
  (if c.color ≠ "" then c.color.data else []) ++ [c.glyph]

/-- The bytes `Render` writes for one row: the cells, a style reset, a
    newline. -/
def rowBytes (row : List Cell) : List Char :=
  (row.map cellBytes).flatten ++ termReset.data ++ ['\n']

end Cyber

/-- A 2×1 frame whose two cells were painted with the same color. -/
def gSameColor : Cyber.GridBuffer :=
  Cyber.applyOps (Cyber.newGrid 2 1)
    [Cyber.Op.set 0 0 'X' Cyber.colorA (Fr.ofInt 1),
     Cyber.Op.set 1 0 'X' Cyber.colorA (Fr.ofInt 1)]

namespace Cyber

/-- cybercube.go `type vec3 struct` (float components). -/
structure Vec3 where
  x : Fr
  y : Fr
  z : Fr
deriving DecidableEq

/-- Go's zero value `vec3{}`. -/
def vec3Zero : Vec3 := ⟨Fr.ofInt 0, Fr.ofInt 0, Fr.ofInt 0⟩

/-- `baseRotationSpeed = vec3{0.022, 0.017, 0.013}`. -/
def baseRotationSpeed : Vec3 := ⟨⟨22, 1000⟩, ⟨17, 1000⟩, ⟨13, 1000⟩⟩

/-- cybercube.go `type InstanceConfig struct`. -/
structure InstanceConfig where
  Scale : Fr
  OffsetX : Fr
  OffsetY : Fr
  RotationSpeed : Vec3
  RotationPhase : Vec3
deriving DecidableEq

/-- cybercube.go `clampFloat`. -/
def clampFloat (v minV maxV : Fr) : Fr :=
  if v < minV then minV else if maxV < v then maxV else v

/-- `InstanceConfig.normalize` (the Go `==` on `vec3{}` is float equality,
    modelled as structural equality of the exact fractions). -/
def InstanceConfig.normalize (ic : InstanceConfig) : InstanceConfig :=
  { Scale := if ic.Scale ≤ Fr.ofInt 0 then Fr.ofInt 1 else ic.Scale
    OffsetX := clampFloat ic.OffsetX ⟨-9, 10⟩ ⟨9, 10⟩
    OffsetY := clampFloat ic.OffsetY ⟨-9, 10⟩ ⟨9, 10⟩
    RotationSpeed :=
      if ic.RotationSpeed = vec3Zero then baseRotationSpeed else ic.RotationSpeed
    RotationPhase := ic.RotationPhase }

/-- cybercube.go `defaultInstances`. -/
def defaultInstances : List InstanceConfig :=
  [⟨⟨9, 10⟩, ⟨-55, 100⟩, ⟨-12, 100⟩, ⟨⟨19, 1000⟩, ⟨21, 1000⟩, ⟨15, 1000⟩⟩,
     ⟨⟨4, 10⟩, ⟨1, 10⟩, ⟨8, 10⟩⟩⟩,
   ⟨⟨105, 100⟩, Fr.ofInt 0, ⟨5, 100⟩, baseRotationSpeed,
     ⟨⟨15, 100⟩, ⟨5, 100⟩, Fr.ofInt 0⟩⟩,
   ⟨⟨78, 100⟩, ⟨55, 100⟩, ⟨-5, 100⟩, ⟨⟨17, 1000⟩, ⟨2, 100⟩, ⟨14, 1000⟩⟩,
     ⟨⟨7, 10⟩, ⟨35, 100⟩, ⟨2, 10⟩⟩⟩]

/-- `cloneInstances`: copies the slice (value copy of each element). -/
def cloneInstances (src : List InstanceConfig) : List InstanceConfig := src

/-- `MultiCubeInstances`. -/
def MultiCubeInstances : List InstanceConfig := cloneInstances defaultInstances

/-- cybercube.go `type Config struct`; `FrameDelay` is a `time.Duration`
    in nanoseconds. -/
structure Config where
  Width : Int
  Height : Int
  FrameDelay : Int
  Instances : List InstanceConfig

/-- cybercube.go `Config.normalize`: floors 48/24, default delay 60ms,
    default instances when none are given. -/
def Config.normalize (c : Config) : Config :=
  { Width := if c.Width < 48 then 48 else c.Width
    Height := if c.Height < 24 then 24 else c.Height
    FrameDelay := if c.FrameDelay ≤ 0 then 60000000 else c.FrameDelay
    Instances :=
      if c.Instances = [] then MultiCubeInstances
      else c.Instances.map InstanceConfig.normalize }

end Cyber

namespace Rain

/-- rain.go `minWidth`. -/
def minWidth : Int := 48

/-- rain.go `minHeight`. -/
def minHeight : Int := 24

/-- rain.go `type Config struct`; `FrameDelay` in nanoseconds. -/
structure Config where
  Width : Int
  Height : Int
  FrameDelay : Int
  Density : Fr

/-- rain.go `Config.normalize`: floors 48/24, default delay 55ms, default
    density 0.15. -/
def Config.normalize (c : Config) : Config :=
  { Width := if c.Width < minWidth then minWidth else c.Width
    Height := if c.Height < minHeight then minHeight else c.Height
    FrameDelay := if c.FrameDelay ≤ 0 then 55000000 else c.FrameDelay
    Density := if c.Density ≤ Fr.ofInt 0 then ⟨15, 100⟩ else c.Density }

/-- rain.go `glowPalette`. -/
def glowPalette : List String := ["\x1b[38;5;195m", "\x1b[38;5;229m"]

/-- rain.go `streamPalettes`. -/
def streamPalettes : List (List String) :=
  [["\x1b[38;5;159m", "\x1b[38;5;81m", "\x1b[38;5;42m", "\x1b[38;5;35m"],
   ["\x1b[38;5;120m", "\x1b[38;5;47m", "\x1b[38;5;40m", "\x1b[38;5;34m"],
   ["\x1b[38;5;123m", "\x1b[38;5;75m", "\x1b[38;5;43m", "\x1b[38;5;29m"]]

/-- rain.go `glyphPool`. -/
def glyphPool : List Char := ['0', '1', '|', '/', '\\', '[', ']']

/-- rain.go `type cell struct`. -/
structure Cell where
  glyph : Char
  color : String
deriving DecidableEq

abbrev Grid := List (List Cell)

/-- rain.go `newGrid`: a fresh grid of space cells with empty color. -/
def newGrid (width height : Int) : Grid :=
  List.replicate height.toNat (List.replicate width.toNat ⟨' ', ""⟩)

/-- rain.go `setCell`: bounds-checked unconditional write (bounds taken
    from the slice lengths). -/
def setCell (grid : Grid) (x y : Int) (glyph : Char) (color : String) : Grid :=
  if y < 0 ∨ (grid.length : Int) ≤ y then grid
  else if x < 0 ∨ ((grid.getD y.toNat []).length : Int) ≤ x then grid
  else listUpdate grid y.toNat (fun row => listUpdate row x.toNat (fun _ => ⟨glyph, color⟩))

/-- rain.go `type stream struct`.  `paletteIdx`, `layer` and `thickness`
    are Go ints that only ever hold `rand.Intn` results, embedded as Nat. -/
structure Stream where
  baseX : Int
  head : Fr
  speed : Fr
  length : Int
  paletteIdx : Nat
  layer : Nat
  swayPhase : Fr
  thickness : Nat
  charset : List Char
deriving DecidableEq

/-- rain.go `type splash struct`. -/
structure Splash where
  x : Fr
  y : Fr
  vx : Fr
  vy : Fr
  life : Int
  color : String
deriving DecidableEq

/-- The `math/rand` global generator, embedded as an oracle holding the
    streams of values the next `Intn` and `Float64` calls return (`Intn n`
    reduces the drawn value mod `n`, keeping it in range as `rand.Intn`
    guarantees).  `drawn` counts the draws made so far — oracle
    bookkeeping that lets consumption of the shared generator be stated. -/
structure Rng where
  ints : List Nat
  floats : List Fr
  drawn : Nat
deriving DecidableEq

/-- `rand.Intn n` against the oracle. -/
def Rng.intn (r : Rng) (n : Nat) : Nat × Rng :=
  ((r.ints.headD 0) % n, ⟨r.ints.tail, r.floats, r.drawn + 1⟩)

/-- `rand.Float64()` against the oracle. -/
def Rng.float (r : Rng) : Fr × Rng :=
  (r.floats.headD (Fr.ofInt 0), ⟨r.ints, r.floats.tail, r.drawn + 1⟩)

/-- rain.go `streamColumn`; `math.Sin` is the oracle parameter `sinA`. -/
def streamColumn (sinA : Fr → Fr) (s : Stream) (frame : Nat) (width : Int) : Int :=
  let sway := sinA (Fr.add s.swayPhase
    (Fr.mul (Fr.mul (Fr.ofInt frame) ⟨2, 100⟩) (Fr.ofInt ((s.layer : Int) + 1))))
  let offset := Fr.round (Fr.mul sway (Fr.ofInt ((s.layer : Int) + 1)))
  let col := s.baseX + offset
  if col < 0 then 0 else if width ≤ col then width - 1 else col

/-- The `for i := 0; i < count; i++` loop body of `emitSplash`: one splash
    appended per iteration, five random draws each. -/
def emitSplashLoop (x : Int) (baseY : Fr) : Nat → List Splash → Rng → List Splash × Rng
  | 0, splashes, rng => (splashes, rng)
  | n + 1, splashes, rng =>
    let p1 := rng.float
    let p2 := p1.2.float
    let p3 := p2.2.float
    let p4 := p3.2.intn 10
    let p5 := p4.2.intn glowPalette.length
    emitSplashLoop x baseY n
      (splashes ++ [⟨Fr.add (Fr.ofInt x) (Fr.sub (Fr.mul p1.1 ⟨6, 10⟩) ⟨3, 10⟩),
                    baseY,
                    Fr.sub (Fr.mul p2.1 ⟨8, 10⟩) ⟨4, 10⟩,
                    Fr.sub (Fr.neg ⟨6, 10⟩) (Fr.mul p3.1 ⟨7, 10⟩),
                    10 + (p4.1 : Int),
                    glowPalette.getD p5.1 ""⟩])
      p5.2

/-- rain.go `emitSplash`: appends `2 + rand.Intn(3)` splashes at
    `baseY = height - 2`. -/
def emitSplash (splashes : List Splash) (x : Int) (height : Int) (rng : Rng) :
    List Splash × Rng :=
  let pc := rng.intn 3
  emitSplashLoop x (Fr.ofInt (height - 2)) (2 + pc.1) splashes pc.2

/-- The mutable state threaded through `drawStreams`: the grid, the splash
    slice behind the `*[]splash` pointer, and the shared generator. -/
structure DrawSt where
  grid : Grid
  splashes : List Splash
  rng : Rng
deriving DecidableEq

/-- One iteration `i` of the inner loop of `drawStreams` for stream `s`:
    paints the glyph across the stream's thickness and, for the head cell
    in the bottom two rows, emits splashes. -/
def streamRowStep (height width : Int) (palette : List String) (s : Stream)
    (frame : Nat) (head column : Int) (st : DrawSt) (i : Nat) : DrawSt :=
  let y : Int := head - i
  if y < 0 ∨ height ≤ y then st
  else
    let color :=
      if i = 0 then glowPalette.getD (((frame : Int) + y).toNat % glowPalette.length) ""
      else palette.getD (min (i / 2 + s.layer) (palette.length - 1)) ""
    let glyphs := if s.charset = [] then glyphPool else s.charset
    let glyph := glyphs.getD (((frame : Int) + y + i).toNat % glyphs.length) ' '
    let grid' := (List.range s.thickness).foldl
      (fun g t =>
        let col := column + (t : Int) - ((s.thickness / 2 : Nat) : Int)
        if col < 0 ∨ width ≤ col then g
        else setCell g col y glyph color) st.grid
    if i = 0 ∧ height - 2 ≤ y then
      let p := emitSplash st.splashes column height st.rng
      ⟨grid', p.1, p.2⟩
    else ⟨grid', st.splashes, st.rng⟩

/-- The per-stream body of `drawStreams`. -/
def drawStreamOne (sinA : Fr → Fr) (height width : Int) (frame : Nat)
    (st : DrawSt) (s : Stream) : DrawSt :=
  let palette := streamPalettes.getD (s.paletteIdx % streamPalettes.length) []
  let head := Fr.trunc s.head
  let column := streamColumn sinA s frame width
  (List.range s.length.toNat).foldl (streamRowStep height width palette s frame head column) st

/-- rain.go `drawStreams(grid, streams, frame, splashes *[]splash)` —
    also reads and advances the shared generator via `emitSplash`. -/
def drawStreams (sinA : Fr → Fr) (grid : Grid) (streams : List Stream) (frame : Nat)
    (splashes : List Splash) (rng : Rng) : DrawSt :=
  let height : Int := grid.length
  let width : Int := (grid.headD []).length
  streams.foldl (drawStreamOne sinA height width frame) ⟨grid, splashes, rng⟩

/-- The in-place per-splash update of `updateSplashes`: position advances
    by the old velocity, gravity bumps `vy`, `life` ticks down. -/
def stepSplash (sp : Splash) : Splash :=
  ⟨Fr.add sp.x sp.vx, Fr.add sp.y sp.vy, sp.vx, Fr.add sp.vy ⟨8, 100⟩,
   sp.life - 1, sp.color⟩

/-- The retention test of `updateSplashes`: keep a splash only while it is
    inside the horizontal bounds, above the floor row, and alive. -/
def keepSplash (width height : Int) (sp : Splash) : Bool :=
  !(decide (sp.x < Fr.ofInt 0) || decide (Fr.ofInt width ≤ sp.x)) &&
  !decide (Fr.ofInt (height - 1) ≤ sp.y) &&
  !decide (sp.life ≤ 0)

/-- rain.go `updateSplashes`: the in-place compaction `dst := items[:0]`
    is step-then-filter, order preserved. -/
def updateSplashes (splashes : List Splash) (width height : Int) : List Splash :=
  (splashes.map stepSplash).filter (keepSplash width height)

/-- rain.go `clampInt`. -/
def clampInt (v lo hi : Int) : Int :=
  if v < lo then lo else if hi < v then hi else v

/-- rain.go `pickCharset`. -/
def pickCharset (rng : Rng) : List Char × Rng :=
  let charsets : List (List Char) :=
    [['|', '/', '\\', ':'], ['1', '=', '-', ':'], ['[', ']', '0', '|']]
  let p := rng.intn charsets.length
  (charsets.getD p.1 [], p.2)

/-- rain.go `resetStream`: assigns every field of the stream from fresh
    random draws; `math.Pi` is the oracle parameter `piA`. -/
def resetStream (piA : Fr) (width height : Int) (visible : Bool) (rng : Rng) :
    Stream × Rng :=
  let pbx := rng.intn width.toNat
  let plen := pbx.2.intn (height.toNat / 2)
  let length := clampInt (6 + (plen.1 : Int)) 6 height
  let play := plen.2.intn 3
  let baseSpeed := Fr.add ⟨35, 100⟩ (Fr.mul (Fr.ofInt (play.1 : Int)) ⟨25, 100⟩)
  let psp := play.2.float
  let speed := Fr.add baseSpeed (Fr.mul psp.1 ⟨6, 10⟩)
  let ppi := psp.2.intn streamPalettes.length
  let psw := ppi.2.float
  let swayPhase := Fr.mul (Fr.mul psw.1 piA) (Fr.ofInt 2)
  let pth := psw.2.intn (1 + play.1)
  let thickness := 1 + pth.1
  let pcs := pickCharset pth.2
  if visible then
    let ph := pcs.2.float
    (⟨(pbx.1 : Int), Fr.mul ph.1 (Fr.ofInt height), speed, length, ppi.1, play.1,
       swayPhase, thickness, pcs.1⟩, ph.2)
  else
    let ph := pcs.2.intn height.toNat
    (⟨(pbx.1 : Int), Fr.ofInt (-(ph.1 : Int)), speed, length, ppi.1, play.1,
       swayPhase, thickness, pcs.1⟩, ph.2)

/-- rain.go `updateStreams`: advances each head and resets (in place) any
    stream whose head has left the bottom of the screen. -/
def updateStreams (piA : Fr) : List Stream → Int → Int → Rng → List Stream × Rng
  | [], _, _, rng => ([], rng)
  | s :: rest, width, height, rng =>
    let s1 : Stream := { s with head := Fr.add s.head s.speed }
    let p :=
      if height < Fr.trunc s1.head - s1.length then resetStream piA width height false rng
      else (s1, rng)
    let prest := updateStreams piA rest width height p.2
    (p.1 :: prest.1, prest.2)

/-- The condition under which stream `s` makes `drawStreams` emit splashes
    this frame: the head row is on screen and within the bottom two rows. -/
def emitsAt (height : Int) (s : Stream) : Prop :=
  1 ≤ s.length ∧ 0 ≤ Fr.trunc s.head ∧ Fr.trunc s.head < height ∧
    height - 2 ≤ Fr.trunc s.head

instance (height : Int) (s : Stream) : Decidable (emitsAt height s) := by
  unfold emitsAt
  infer_instance

/-- The `math.Sin` oracle used in concrete runs. -/
def sinZero : Fr → Fr := fun _ => Fr.ofInt 0

/-- A concrete random oracle with eight pre-drawn values per stream. -/
def rng0 : Rng := ⟨[0, 0, 0, 0, 0, 0, 0, 0], List.replicate 8 (Fr.ofInt 0), 0⟩

/-- A stream whose head (row 23 of 24) sits in the bottom two rows. -/
def streamHit : Stream := ⟨5, Fr.ofInt 23, Fr.ofInt 1, 1, 0, 0, Fr.ofInt 0, 1, ['|']⟩

/-- A stream whose head (row 5 of 24) is far from the bottom rows. -/
def streamQuiet : Stream := ⟨5, Fr.ofInt 5, Fr.ofInt 1, 3, 0, 0, Fr.ofInt 0, 1, ['|']⟩

/-- A splash one tick from expiry, safely inside the 48×24 bounds. -/
def splashDying : Splash :=
  ⟨Fr.ofInt 5, Fr.ofInt 5, Fr.ofInt 0, Fr.ofInt 0, 1, "\x1b[38;5;195m"⟩

/-- A splash with life left that stays inside the 48×24 bounds when
    advanced. -/
def splashLive : Splash :=
  ⟨Fr.ofInt 5, Fr.ofInt 5, Fr.ofInt 0, Fr.ofInt 0, 5, "\x1b[38;5;229m"⟩

/-- The retention criteria of `updateSplashes`, as the source states them:
    an advanced splash is kept iff it is within the horizontal bounds,
    above the floor row, and still alive. -/
def survives (width height : Int) (sp : Splash) : Prop :=
  ¬(sp.x < Fr.ofInt 0 ∨ Fr.ofInt width ≤ sp.x) ∧
  ¬(Fr.ofInt (height - 1) ≤ sp.y) ∧ ¬(sp.life ≤ 0)

instance (width height : Int) (sp : Splash) : Decidable (survives width height sp) := by
  unfold survives
  infer_instance

end Rain

/- ---------------------------------------------------------------------
   Theorems.
   --------------------------------------------------------------------- -/

theorem length_listUpdate {α : Type} (l : List α) (i : Nat) (f : α → α) :
    (listUpdate l i f).length = l.length := by
  induction l generalizing i with
  | nil => rfl
  | cons a as ih =>
    cases i with
    | zero => rfl
    | succ j => simpa [listUpdate] using ih j

theorem getD_listUpdate_self {α : Type} (l : List α) (i : Nat) (f : α → α) (d : α)
    (h : i < l.length) : (listUpdate l i f).getD i d = f (l.getD i d) := by
  induction l generalizing i with
  | nil => simp at h
  | cons a as ih =>
    cases i with
    | zero => rfl
    | succ j => simpa [listUpdate] using ih j (by simpa using h)

theorem forall_mem_listUpdate {α : Type} {p : α → Prop} (l : List α) (i : Nat) (f : α → α)
    (hl : ∀ a ∈ l, p a) (hf : ∀ a, p a → p (f a)) :
    ∀ b ∈ listUpdate l i f, p b := by
  induction l generalizing i with
  | nil => simp [listUpdate]
  | cons a as ih =>
    cases i with
    | zero =>
      intro b hb
      rcases List.mem_cons.mp hb with heq | hb
      · exact heq ▸ hf a (hl a (List.mem_cons_self a as))
      · exact hl b (List.mem_cons_of_mem a hb)
    | succ j =>
      intro b hb
      rcases List.mem_cons.mp hb with heq | hb
      · exact heq ▸ hl a (List.mem_cons_self a as)
      · exact ih j (fun a' ha' => hl a' (List.mem_cons_of_mem a ha')) b hb

theorem getD_replicate_self {α : Type} (n : Nat) (a d : α) (i : Nat) (h : i < n) :
    (List.replicate n a).getD i d = a := by
  induction n generalizing i with
  | zero => omega
  | succ m ih =>
    cases i with
    | zero => rfl
    | succ j => simpa [List.replicate] using ih j (by omega)

theorem getD_map_self {α β : Type} (l : List α) (f : α → β) (i : Nat) (d₁ : β) (d₂ : α)
    (h : i < l.length) : (l.map f).getD i d₁ = f (l.getD i d₂) := by
  induction l generalizing i with
  | nil => simp at h
  | cons a as ih =>
    cases i with
    | zero => rfl
    | succ j => simpa using ih j (by simpa using h)

theorem getD_mem {α : Type} (l : List α) (i : Nat) (d : α) (h : i < l.length) :
    l.getD i d ∈ l := by
  induction l generalizing i with
  | nil => simp at h
  | cons a as ih =>
    cases i with
    | zero => simp
    | succ j => exact List.mem_cons_of_mem a (ih j (by simpa using h))

/-- Fold invariant: a property preserved by every step holds of the result. -/
theorem foldl_hold {α β : Type} {P : β → Prop} (f : β → α → β) (l : List α) (b : β)
    (hstep : ∀ b' a, a ∈ l → P b' → P (f b' a)) (hb : P b) : P (l.foldl f b) := by
  induction l generalizing b with
  | nil => exact hb
  | cons a as ih =>
    exact ih (f b a) (fun b' x hx => hstep b' x (by simp [hx])) (hstep b a (by simp) hb)

namespace Fr

theorem le_of_lt {a b : Fr} (h : a < b) : a ≤ b := Int.le_of_lt h

theorem not_le_of_lt {a b : Fr} (h : a < b) : ¬b ≤ a := Int.not_le.mpr h

theorem le_refl (a : Fr) : a ≤ a := Int.le_refl _

end Fr

namespace Cyber

theorem Set_width (g : GridBuffer) (x y : Int) (gl : Char) (c : String) (d : Fr) :
    (g.Set x y gl c d).width = g.width := by
  unfold GridBuffer.Set
  dsimp only
  split
  · rfl
  · split
    · rfl
    · split
      · rfl
      · rfl

theorem Set_height (g : GridBuffer) (x y : Int) (gl : Char) (c : String) (d : Fr) :
    (g.Set x y gl c d).height = g.height := by
  unfold GridBuffer.Set
  dsimp only
  split
  · rfl
  · split
    · rfl
    · split
      · rfl
      · rfl

theorem SetIfEmpty_width (g : GridBuffer) (x y : Int) (gl : Char) (c : String) :
    (g.SetIfEmpty x y gl c).width = g.width := by
  unfold GridBuffer.SetIfEmpty
  split
  · rfl
  · split
    · rfl
    · split
      · rfl
      · rfl

theorem SetIfEmpty_height (g : GridBuffer) (x y : Int) (gl : Char) (c : String) :
    (g.SetIfEmpty x y gl c).height = g.height := by
  unfold GridBuffer.SetIfEmpty
  split
  · rfl
  · split
    · rfl
    · split
      · rfl
      · rfl

theorem Set_WF (g : GridBuffer) (x y : Int) (gl : Char) (c : String) (d : Fr)
    (h : WF g) : WF (g.Set x y gl c d) := by
  unfold GridBuffer.Set
  dsimp only
  split
  · exact h
  · split
    · exact h
    · split
      · exact h
      · refine ⟨?_, ?_⟩
        · simpa [length_listUpdate] using h.1
        · exact forall_mem_listUpdate _ _ _ h.2
            (fun row hrow => by simpa [length_listUpdate] using hrow)

theorem SetIfEmpty_WF (g : GridBuffer) (x y : Int) (gl : Char) (c : String)
    (h : WF g) : WF (g.SetIfEmpty x y gl c) := by
  unfold GridBuffer.SetIfEmpty
  split
  · exact h
  · split
    · exact h
    · split
      · refine ⟨?_, ?_⟩
        · simpa [length_listUpdate] using h.1
        · exact forall_mem_listUpdate _ _ _ h.2
            (fun row hrow => by simpa [length_listUpdate] using hrow)
      · exact h

theorem Clear_WF (g : GridBuffer) (h : WF g) : WF g.Clear := by
  unfold WF GridBuffer.Clear
  dsimp only
  refine ⟨by simpa using h.1, ?_⟩
  intro row hrow
  rcases List.mem_map.mp hrow with ⟨row₀, hmem, rfl⟩
  simpa using h.2 row₀ hmem

theorem applyOp_width (g : GridBuffer) (op : Op) : (applyOp g op).width = g.width := by
  cases op with
  | set x y gl c d => exact Set_width g x y gl c d
  | setIfEmpty x y gl c => exact SetIfEmpty_width g x y gl c
  | clear => rfl

theorem applyOp_height (g : GridBuffer) (op : Op) : (applyOp g op).height = g.height := by
  cases op with
  | set x y gl c d => exact Set_height g x y gl c d
  | setIfEmpty x y gl c => exact SetIfEmpty_height g x y gl c
  | clear => rfl

theorem applyOp_WF (g : GridBuffer) (op : Op) (h : WF g) : WF (applyOp g op) := by
  cases op with
  | set x y gl c d => exact Set_WF g x y gl c d h
  | setIfEmpty x y gl c => exact SetIfEmpty_WF g x y gl c h
  | clear => exact Clear_WF g h

theorem applyOps_width (g : GridBuffer) (ops : List Op) :
    (applyOps g ops).width = g.width := by
  induction ops generalizing g with
  | nil => rfl
  | cons op rest ih => simpa [applyOps, List.foldl_cons, applyOp_width]
      using (ih (applyOp g op)).trans (applyOp_width g op)

theorem applyOps_height (g : GridBuffer) (ops : List Op) :
    (applyOps g ops).height = g.height := by
  induction ops generalizing g with
  | nil => rfl
  | cons op rest ih => simpa [applyOps, List.foldl_cons, applyOp_height]
      using (ih (applyOp g op)).trans (applyOp_height g op)

theorem applyOps_WF (g : GridBuffer) (ops : List Op) (h : WF g) : WF (applyOps g ops) := by
  induction ops generalizing g with
  | nil => exact h
  | cons op rest ih => exact ih (applyOp g op) (applyOp_WF g op h)

theorem newGrid_WF (w h : Int) : WF (newGrid w h) := by
  unfold WF newGrid
  dsimp only
  refine ⟨by simp, ?_⟩
  intro row hrow
  rw [List.eq_of_mem_replicate hrow]
  simp

theorem cellAt_newGrid (w h : Int) (x y : Nat) (hx : x < w.toNat) (hy : y < h.toNat) :
    cellAt (newGrid w h) x y = blankCell := by
  unfold cellAt newGrid
  rw [getD_replicate_self h.toNat _ _ y hy, getD_replicate_self w.toNat _ _ x hx]

theorem cellAt_Clear (g : GridBuffer) (hWF : WF g) (x y : Nat)
    (hx : x < g.width.toNat) (hy : y < g.height.toNat) :
    cellAt g.Clear x y = blankCell := by
  unfold cellAt GridBuffer.Clear
  have hylen : y < g.cells.length := by rw [hWF.1]; exact hy
  rw [getD_map_self g.cells _ y [] [] hylen]
  have hrow : (g.cells.getD y []).length = g.width.toNat :=
    hWF.2 _ (getD_mem g.cells y [] hylen)
  rw [getD_map_self _ _ x blankCell blankCell (by rw [hrow]; exact hx)]

theorem Set_writes (g : GridBuffer) (x y : Nat) (gl : Char) (c : String) (d : Fr)
    (hWF : WF g) (hx : (x : Int) < g.width) (hy : (y : Int) < g.height)
    (hc : ¬((cellAt g x y).glyph ≠ ' ' ∧ (cellAt g x y).depth ≤ d)) :
    cellAt (g.Set x y gl c d) x y = ⟨gl, c, d⟩ := by
  have hylen : y < g.cells.length := by rw [hWF.1]; omega
  have hrowlen : (g.cells.getD y []).length = g.width.toNat :=
    hWF.2 _ (getD_mem _ _ _ hylen)
  have hxrow : x < (g.cells.getD y []).length := by rw [hrowlen]; omega
  unfold GridBuffer.Set
  dsimp only
  rw [if_neg (by omega), if_neg (by omega)]
  simp only [Int.toNat_natCast]
  rw [if_neg hc]
  unfold cellAt
  dsimp only
  rw [getD_listUpdate_self _ _ _ _ hylen, getD_listUpdate_self _ _ _ _ hxrow]

theorem Set_skips (g : GridBuffer) (x y : Nat) (gl : Char) (c : String) (d : Fr)
    (hx : (x : Int) < g.width) (hy : (y : Int) < g.height)
    (hg : (cellAt g x y).glyph ≠ ' ') (hd : (cellAt g x y).depth ≤ d) :
    g.Set x y gl c d = g := by
  unfold GridBuffer.Set
  dsimp only
  rw [if_neg (by omega), if_neg (by omega)]
  simp only [Int.toNat_natCast]
  rw [if_pos ⟨hg, hd⟩]

theorem SetIfEmpty_skips (g : GridBuffer) (x y : Nat) (gl : Char) (c : String)
    (hx : (x : Int) < g.width) (hy : (y : Int) < g.height)
    (hg : (cellAt g x y).glyph ≠ ' ') :
    g.SetIfEmpty x y gl c = g := by
  unfold GridBuffer.SetIfEmpty
  rw [if_neg (by omega), if_neg (by omega)]
  simp only [Int.toNat_natCast]
  rw [if_neg hg]

theorem SetIfEmpty_writes (g : GridBuffer) (x y : Nat) (gl : Char) (c : String)
    (hWF : WF g) (hx : (x : Int) < g.width) (hy : (y : Int) < g.height)
    (hg : (cellAt g x y).glyph = ' ') :
    cellAt (g.SetIfEmpty x y gl c) x y = ⟨gl, c, maxFloat64⟩ := by
  have hylen : y < g.cells.length := by rw [hWF.1]; omega
  have hrowlen : (g.cells.getD y []).length = g.width.toNat :=
    hWF.2 _ (getD_mem _ _ _ hylen)
  have hxrow : x < (g.cells.getD y []).length := by rw [hrowlen]; omega
  unfold GridBuffer.SetIfEmpty
  rw [if_neg (by omega), if_neg (by omega)]
  simp only [Int.toNat_natCast]
  rw [if_pos hg]
  unfold cellAt
  dsimp only
  rw [getD_listUpdate_self _ _ _ _ hylen, getD_listUpdate_self _ _ _ _ hxrow]

theorem Set_oob (g : GridBuffer) (x y : Int) (gl : Char) (c : String) (d : Fr)
    (hoob : x < 0 ∨ g.width ≤ x ∨ y < 0 ∨ g.height ≤ y) :
    g.Set x y gl c d = g := by
  unfold GridBuffer.Set
  dsimp only
  by_cases hy : y < 0 ∨ g.height ≤ y
  · rw [if_pos hy]
  · have hx : x < 0 ∨ g.width ≤ x := by
      rcases hoob with h | h | h | h
      · exact Or.inl h
      · exact Or.inr h
      · exact absurd (Or.inl h) hy
      · exact absurd (Or.inr h) hy
    rw [if_neg hy, if_pos hx]

theorem SetIfEmpty_oob (g : GridBuffer) (x y : Int) (gl : Char) (c : String)
    (hoob : x < 0 ∨ g.width ≤ x ∨ y < 0 ∨ g.height ≤ y) :
    g.SetIfEmpty x y gl c = g := by
  unfold GridBuffer.SetIfEmpty
  by_cases hy : y < 0 ∨ g.height ≤ y
  · rw [if_pos hy]
  · have hx : x < 0 ∨ g.width ≤ x := by
      rcases hoob with h | h | h | h
      · exact Or.inl h
      · exact Or.inr h
      · exact absurd (Or.inl h) hy
      · exact absurd (Or.inr h) hy
    rw [if_neg hy, if_pos hx]

end Cyber

/-- C1: two `Set` calls to the same in-bounds coordinate of a cleared
    frame buffer, each writing a non-space glyph: with depths d1 < d2 the
    final cell holds the d1 write's glyph/color/depth in either call
    order; with equal depths the first write is retained and the second
    is a no-op. -/
theorem set_depth_ordering (w h : Nat) (ops : List Cyber.Op) (x y : Nat)
    (g1 g2 : Char) (c1 c2 : String) (d1 d2 : Fr)
    (hx : x < w) (hy : y < h) (h1 : g1 ≠ ' ') (h2 : g2 ≠ ' ') :
    (d1 < d2 →
      Cyber.cellAt
        (((Cyber.applyOps (Cyber.newGrid w h) ops).Clear.Set x y g1 c1 d1).Set
          x y g2 c2 d2) x y = ⟨g1, c1, d1⟩ ∧
      Cyber.cellAt
        (((Cyber.applyOps (Cyber.newGrid w h) ops).Clear.Set x y g2 c2 d2).Set
          x y g1 c1 d1) x y = ⟨g1, c1, d1⟩) ∧
    (d1 = d2 →
      Cyber.cellAt
        (((Cyber.applyOps (Cyber.newGrid w h) ops).Clear.Set x y g1 c1 d1).Set
          x y g2 c2 d2) x y = ⟨g1, c1, d1⟩) := by
  have hWF0 : Cyber.WF (Cyber.applyOps (Cyber.newGrid w h) ops) :=
    Cyber.applyOps_WF _ _ (Cyber.newGrid_WF _ _)
  have hWFb : Cyber.WF (Cyber.applyOps (Cyber.newGrid w h) ops).Clear :=
    Cyber.Clear_WF _ hWF0
  have hbw : ((Cyber.applyOps (Cyber.newGrid w h) ops).Clear).width = (w : Int) := by
    show (Cyber.applyOps (Cyber.newGrid w h) ops).width = (w : Int)
    rw [Cyber.applyOps_width]
    rfl
  have hbh : ((Cyber.applyOps (Cyber.newGrid w h) ops).Clear).height = (h : Int) := by
    show (Cyber.applyOps (Cyber.newGrid w h) ops).height = (h : Int)
    rw [Cyber.applyOps_height]
    rfl
  have hxb : ((x : Int)) < ((Cyber.applyOps (Cyber.newGrid w h) ops).Clear).width := by
    rw [hbw]; exact_mod_cast hx
  have hyb : ((y : Int)) < ((Cyber.applyOps (Cyber.newGrid w h) ops).Clear).height := by
    rw [hbh]; exact_mod_cast hy
  have hblank :
      Cyber.cellAt ((Cyber.applyOps (Cyber.newGrid w h) ops).Clear) x y
        = Cyber.blankCell := by
    refine Cyber.cellAt_Clear _ hWF0 x y ?_ ?_
    · rw [Cyber.applyOps_width]; simpa [Cyber.newGrid] using hx
    · rw [Cyber.applyOps_height]; simpa [Cyber.newGrid] using hy
  have first : ∀ (gl : Char) (c : String) (d : Fr),
      Cyber.cellAt ((Cyber.applyOps (Cyber.newGrid w h) ops).Clear.Set x y gl c d) x y
        = ⟨gl, c, d⟩ := by
    intro gl c d
    refine Cyber.Set_writes _ x y gl c d hWFb hxb hyb ?_
    rw [hblank]
    simp [Cyber.blankCell]
  refine ⟨fun hlt => ⟨?_, ?_⟩, fun heq => ?_⟩
  · have hskip :
        ((Cyber.applyOps (Cyber.newGrid w h) ops).Clear.Set x y g1 c1 d1).Set
            x y g2 c2 d2
          = (Cyber.applyOps (Cyber.newGrid w h) ops).Clear.Set x y g1 c1 d1 := by
      refine Cyber.Set_skips _ x y g2 c2 d2 ?_ ?_ ?_ ?_
      · rw [Cyber.Set_width]; exact hxb
      · rw [Cyber.Set_height]; exact hyb
      · rw [first g1 c1 d1]; exact h1
      · rw [first g1 c1 d1]; exact Fr.le_of_lt hlt
    rw [hskip]; exact first g1 c1 d1
  · refine Cyber.Set_writes _ x y g1 c1 d1 (Cyber.Set_WF _ _ _ _ _ _ hWFb) ?_ ?_ ?_
    · rw [Cyber.Set_width]; exact hxb
    · rw [Cyber.Set_height]; exact hyb
    · rw [first g2 c2 d2]
      intro hcontr
      exact Fr.not_le_of_lt hlt hcontr.2
  · subst heq
    have hskip :
        ((Cyber.applyOps (Cyber.newGrid w h) ops).Clear.Set x y g1 c1 d1).Set
            x y g2 c2 d1
          = (Cyber.applyOps (Cyber.newGrid w h) ops).Clear.Set x y g1 c1 d1 := by
      refine Cyber.Set_skips _ x y g2 c2 d1 ?_ ?_ ?_ ?_
      · rw [Cyber.Set_width]; exact hxb
      · rw [Cyber.Set_height]; exact hyb
      · rw [first g1 c1 d1]; exact h1
      · rw [first g1 c1 d1]; exact Fr.le_refl d1
    rw [hskip]; exact first g1 c1 d1

/-- Witness for C1: the spec's 10×5 end-to-end scenario — `Set(2,2,'X',colorA,1.0)`
    then `Set(2,2,'Y',colorA,2.0)` leaves glyph `'X'` at (2,2). -/
theorem set_depth_ordering_witness :
    Cyber.cellAt
      (((Cyber.applyOps (Cyber.newGrid 10 5) []).Clear.Set 2 2 'X' Cyber.colorA
          (Fr.ofInt 1)).Set 2 2 'Y' Cyber.colorA (Fr.ofInt 2)) 2 2
      = ⟨'X', Cyber.colorA, Fr.ofInt 1⟩ :=
  ((set_depth_ordering 10 5 [] 2 2 'X' 'Y' Cyber.colorA Cyber.colorA
      (Fr.ofInt 1) (Fr.ofInt 2) (by decide) (by decide) (by decide) (by decide)).1
    (by decide)).1

/-- C2: once an in-bounds cell holds a non-space glyph (painted earlier in
    the frame by any sequence of `Set`/`SetIfEmpty`/`Clear` operations),
    `SetIfEmpty` at that coordinate leaves the whole buffer — and hence
    that cell — unchanged: it writes only when the target glyph is the
    space sentinel. -/
theorem setIfEmpty_never_overwrites (w h : Nat) (ops : List Cyber.Op) (x y : Nat)
    (gl : Char) (c : String) (hx : x < w) (hy : y < h)
    (hp : (Cyber.cellAt (Cyber.applyOps (Cyber.newGrid w h) ops) x y).glyph ≠ ' ') :
    (Cyber.applyOps (Cyber.newGrid w h) ops).SetIfEmpty x y gl c
      = Cyber.applyOps (Cyber.newGrid w h) ops := by
  refine Cyber.SetIfEmpty_skips _ x y gl c ?_ ?_ hp
  · rw [Cyber.applyOps_width]; show (x : Int) < (w : Int); exact_mod_cast hx
  · rw [Cyber.applyOps_height]; show (y : Int) < (h : Int); exact_mod_cast hy

/-- Witness for C2: the spec scenario — `SetIfEmpty(0,0,'.',colorA)` then
    `SetIfEmpty(0,0,'#',colorB)` retains the `'.'` write. -/
theorem setIfEmpty_never_overwrites_witness :
    (Cyber.applyOps (Cyber.newGrid 10 5) [Cyber.Op.setIfEmpty 0 0 '.' Cyber.colorA]).SetIfEmpty
        0 0 '#' Cyber.colorB
      = Cyber.applyOps (Cyber.newGrid 10 5) [Cyber.Op.setIfEmpty 0 0 '.' Cyber.colorA] :=
  setIfEmpty_never_overwrites 10 5 [Cyber.Op.setIfEmpty 0 0 '.' Cyber.colorA] 0 0 '#'
    Cyber.colorB (by decide) (by decide) (by decide)

/-- C3: for any coordinate outside `[0,width) × [0,height)` both `Set` and
    `SetIfEmpty` return the buffer unchanged (so every cell is identical
    to its state before the call), and — being total functions — report
    no error. -/
theorem oob_writes_are_noops (g : Cyber.GridBuffer) (x y : Int) (gl : Char)
    (c : String) (d : Fr)
    (hoob : x < 0 ∨ g.width ≤ x ∨ y < 0 ∨ g.height ≤ y) :
    g.Set x y gl c d = g ∧ g.SetIfEmpty x y gl c = g :=
  ⟨Cyber.Set_oob g x y gl c d hoob, Cyber.SetIfEmpty_oob g x y gl c hoob⟩

/-- Witness for C3 at a concrete out-of-bounds coordinate of a 10×5 buffer. -/
theorem oob_writes_are_noops_witness :
    (Cyber.newGrid 10 5).Set (-1) 2 'X' Cyber.colorA (Fr.ofInt 1) = Cyber.newGrid 10 5 ∧
    (Cyber.newGrid 10 5).SetIfEmpty (-1) 2 'X' Cyber.colorA = Cyber.newGrid 10 5 :=
  oob_writes_are_noops (Cyber.newGrid 10 5) (-1) 2 'X' Cyber.colorA (Fr.ofInt 1)
    (by decide)

/-- C10: a cell first painted by `SetIfEmpty` records depth
    `math.MaxFloat64`, so any later `Set` at that coordinate whose depth is
    strictly below `math.MaxFloat64` overwrites the cell's glyph and color
    unconditionally. -/
theorem setIfEmpty_loses_to_set (w h : Nat) (ops : List Cyber.Op) (x y : Nat)
    (gl gl2 : Char) (c c2 : String) (d : Fr)
    (hx : x < w) (hy : y < h)
    (hempty : (Cyber.cellAt (Cyber.applyOps (Cyber.newGrid w h) ops) x y).glyph = ' ')
    (hgl : gl ≠ ' ') (hd : d < maxFloat64) :
    Cyber.cellAt ((Cyber.applyOps (Cyber.newGrid w h) ops).SetIfEmpty x y gl c) x y
        = ⟨gl, c, maxFloat64⟩ ∧
    Cyber.cellAt (((Cyber.applyOps (Cyber.newGrid w h) ops).SetIfEmpty x y gl c).Set
        x y gl2 c2 d) x y = ⟨gl2, c2, d⟩ := by
  have hWF0 : Cyber.WF (Cyber.applyOps (Cyber.newGrid w h) ops) :=
    Cyber.applyOps_WF _ _ (Cyber.newGrid_WF _ _)
  have hxb : ((x : Int)) < (Cyber.applyOps (Cyber.newGrid w h) ops).width := by
    rw [Cyber.applyOps_width]; show (x : Int) < (w : Int); exact_mod_cast hx
  have hyb : ((y : Int)) < (Cyber.applyOps (Cyber.newGrid w h) ops).height := by
    rw [Cyber.applyOps_height]; show (y : Int) < (h : Int); exact_mod_cast hy
  have hwrite :
      Cyber.cellAt ((Cyber.applyOps (Cyber.newGrid w h) ops).SetIfEmpty x y gl c) x y
        = ⟨gl, c, maxFloat64⟩ :=
    Cyber.SetIfEmpty_writes _ x y gl c hWF0 hxb hyb hempty
  refine ⟨hwrite, ?_⟩
  refine Cyber.Set_writes _ x y gl2 c2 d
    (Cyber.SetIfEmpty_WF _ _ _ _ _ hWF0) ?_ ?_ ?_
  · rw [Cyber.SetIfEmpty_width]; exact hxb
  · rw [Cyber.SetIfEmpty_height]; exact hyb
  · rw [hwrite]
    intro hcontr
    exact Fr.not_le_of_lt hd hcontr.2

/-- Witness for C10: a backdrop dot written by `SetIfEmpty` at (0,0) is
    overwritten by a depth-1 `Set`. -/
theorem setIfEmpty_loses_to_set_witness :
    Cyber.cellAt ((Cyber.applyOps (Cyber.newGrid 10 5) []).SetIfEmpty 0 0 '.'
        Cyber.colorA) 0 0 = ⟨'.', Cyber.colorA, maxFloat64⟩ ∧
    Cyber.cellAt (((Cyber.applyOps (Cyber.newGrid 10 5) []).SetIfEmpty 0 0 '.'
        Cyber.colorA).Set 0 0 'X' Cyber.colorB (Fr.ofInt 1)) 0 0
      = ⟨'X', Cyber.colorB, Fr.ofInt 1⟩ :=
  setIfEmpty_loses_to_set 10 5 [] 0 0 '.' 'X' Cyber.colorA Cyber.colorB (Fr.ofInt 1)
    (by decide) (by decide) (by decide) (by decide) (by decide)

namespace Cyber

theorem foldl_row (row : List Cell) (acc : List Char) :
    row.foldl
        (fun a c => (a ++ (if c.color ≠ "" then c.color.data else [])) ++ [c.glyph]) acc
      = acc ++ (row.map cellBytes).flatten := by
  induction row generalizing acc with
  | nil => simp
  | cons c cs ih =>
    rw [List.foldl_cons, ih]
    simp [cellBytes, List.append_assoc]

theorem render_fold (rows : List (List Cell)) (acc : List Char) :
    rows.foldl
        (fun acc row =>
          (row.foldl
            (fun a c => (a ++ (if c.color ≠ "" then c.color.data else [])) ++ [c.glyph])
            acc) ++ termReset.data ++ ['\n'])
        acc
      = acc ++ (rows.map rowBytes).flatten := by
  induction rows generalizing acc with
  | nil => simp
  | cons r rs ih =>
    rw [List.foldl_cons, ih, foldl_row]
    simp [rowBytes, List.append_assoc]

/-- `Render` decomposed: home escape, then per row the cell bytes, a style
    reset and a newline. -/
theorem render_structured (g : GridBuffer) :
    g.Render = termHome.data ++ (g.cells.map rowBytes).flatten := by
  unfold GridBuffer.Render
  exact render_fold g.cells termHome.data

theorem map_const_eq_replicate {α β : Type} (l : List α) (b : β) :
    (l.map fun _ => b) = List.replicate l.length b := by
  induction l with
  | nil => rfl
  | cons a as ih => simp [ih, List.replicate_succ]

theorem flatten_replicate_singleton {α : Type} (n : Nat) (a : α) :
    (List.replicate n [a]).flatten = List.replicate n a := by
  induction n with
  | zero => rfl
  | succ m ih => simp [List.replicate_succ, ih]

end Cyber

/-- C5: for every grid reachable from construction by scene writes, the
    serialized frame is exactly one cursor-home escape, then exactly
    `height` row sequences, each consisting of the row's `width` glyph
    bytes (each optionally preceded by a color escape) terminated by one
    style reset and one newline — nothing else is interleaved. -/
theorem render_frame_shape (w h : Nat) (ops : List Cyber.Op) :
    (Cyber.applyOps (Cyber.newGrid w h) ops).Render
        = Cyber.termHome.data
          ++ ((Cyber.applyOps (Cyber.newGrid w h) ops).cells.map Cyber.rowBytes).flatten ∧
    (Cyber.applyOps (Cyber.newGrid w h) ops).cells.length = h ∧
    ∀ row ∈ (Cyber.applyOps (Cyber.newGrid w h) ops).cells, row.length = w := by
  have hWF : Cyber.WF (Cyber.applyOps (Cyber.newGrid w h) ops) :=
    Cyber.applyOps_WF _ _ (Cyber.newGrid_WF _ _)
  refine ⟨Cyber.render_structured _, ?_, ?_⟩
  · rw [hWF.1, Cyber.applyOps_height]; simp [Cyber.newGrid]
  · intro row hrow
    have := hWF.2 row hrow
    rwa [Cyber.applyOps_width] at this

/-- C6: `Clear()` followed immediately by serialization yields the home
    escape and exactly `height` rows, each exactly `width` space glyphs
    followed by the style reset and a newline — in particular no color
    escape appears anywhere in the frame. -/
theorem clear_then_render_blank (w h : Nat) (ops : List Cyber.Op) :
    ((Cyber.applyOps (Cyber.newGrid w h) ops).Clear).Render
      = Cyber.termHome.data
        ++ (List.replicate h
              (List.replicate w ' ' ++ Cyber.termReset.data ++ ['\n'])).flatten := by
  have hWF0 : Cyber.WF (Cyber.applyOps (Cyber.newGrid w h) ops) :=
    Cyber.applyOps_WF _ _ (Cyber.newGrid_WF _ _)
  rw [Cyber.render_structured]
  congr 1
  have hlen : (Cyber.applyOps (Cyber.newGrid w h) ops).cells.length = h := by
    rw [hWF0.1, Cyber.applyOps_height]; simp [Cyber.newGrid]
  have : ((Cyber.applyOps (Cyber.newGrid w h) ops).Clear).cells.map Cyber.rowBytes
      = List.replicate h (List.replicate w ' ' ++ Cyber.termReset.data ++ ['\n']) := by
    apply List.eq_replicate_iff.mpr
    constructor
    · simpa [Cyber.GridBuffer.Clear] using hlen
    · intro b hb
      rcases List.mem_map.mp hb with ⟨row, hrow, rfl⟩
      rcases List.mem_map.mp hrow with ⟨row₀, hrow₀, rfl⟩
      have hrl : row₀.length = w := by
        have := hWF0.2 row₀ hrow₀
        rwa [Cyber.applyOps_width] at this
      unfold Cyber.rowBytes
      rw [List.map_map]
      have hcb : (Cyber.cellBytes ∘ fun _ => Cyber.blankCell) = fun (_ : Cyber.Cell) => [' '] := by
        funext c
        simp [Cyber.cellBytes, Cyber.blankCell]
      rw [hcb, Cyber.map_const_eq_replicate, hrl, Cyber.flatten_replicate_singleton]
  rw [this]

/-- C4 amended: during serialization a color escape is emitted for a cell
    exactly when that cell's color is non-empty — independently of the
    color already in effect, so consecutive cells sharing the same
    non-empty color re-emit the same escape for each cell (no
    run-suppression is performed). -/
theorem render_emits_color_per_cell (g : Cyber.GridBuffer) :
    g.Render
      = Cyber.termHome.data
        ++ (g.cells.map (fun row =>
              (row.map (fun c =>
                (if c.color ≠ "" then c.color.data else []) ++ [c.glyph])).flatten
              ++ Cyber.termReset.data ++ ['\n'])).flatten :=
  Cyber.render_structured g

/-- C4 counterexample: on two adjacent cells of identical color the real
    serializer emits the color escape twice, so it differs from the
    run-minimized serializer the spec describes. -/
theorem render_repeats_color_escape_cex :
    Cyber.GridBuffer.Render gSameColor ≠ Cyber.RenderMinimized gSameColor := by
  decide

/-- C9: configuration construction never fails — for both the cube and
    rain scenes a requested width below 48 is raised to 48, a height below
    24 is raised to 24, and a non-positive frame delay is replaced by the
    scene default (60ms cube, 55ms rain); the constructed buffer's rows
    have exactly the normalized (floored) width, not the requested one. -/
theorem config_floors :
    (∀ c : Cyber.Config,
      (c.Width < 48 → c.normalize.Width = 48) ∧
      (c.Height < 24 → c.normalize.Height = 24) ∧
      (c.FrameDelay ≤ 0 → c.normalize.FrameDelay = 60000000) ∧
      48 ≤ c.normalize.Width ∧ 24 ≤ c.normalize.Height) ∧
    (∀ c : Rain.Config,
      (c.Width < 48 → c.normalize.Width = 48) ∧
      (c.Height < 24 → c.normalize.Height = 24) ∧
      (c.FrameDelay ≤ 0 → c.normalize.FrameDelay = 55000000) ∧
      48 ≤ c.normalize.Width ∧ 24 ≤ c.normalize.Height) ∧
    (∀ c : Cyber.Config,
      ∀ row ∈ (Cyber.newGrid c.normalize.Width c.normalize.Height).cells,
        (row.length : Int) = c.normalize.Width) := by
  refine ⟨?_, ?_, ?_⟩
  · intro c
    refine ⟨fun hw => ?_, fun hh => ?_, fun hd => ?_, ?_, ?_⟩ <;>
      simp only [Cyber.Config.normalize] <;> split <;> omega
  · intro c
    refine ⟨fun hw => ?_, fun hh => ?_, fun hd => ?_, ?_, ?_⟩ <;>
      simp only [Rain.Config.normalize, Rain.minWidth, Rain.minHeight] <;> split <;> omega
  · intro c row hrow
    have h48 : 48 ≤ c.normalize.Width := by
      simp only [Cyber.Config.normalize]; split <;> omega
    have : row.length = c.normalize.Width.toNat := by
      simp only [Cyber.newGrid] at hrow
      rw [List.eq_of_mem_replicate hrow]
      exact List.length_replicate _ _
    rw [this]
    omega

/-- Witness for C9: the spec scenario — a width-10 request is normalized
    to each scene's 48 floor (and the other floors/defaults kick in). -/
theorem config_floors_witness :
    (Cyber.Config.normalize ⟨10, 5, 0, []⟩).Width = 48 ∧
    (Cyber.Config.normalize ⟨10, 5, 0, []⟩).Height = 24 ∧
    (Cyber.Config.normalize ⟨10, 5, 0, []⟩).FrameDelay = 60000000 ∧
    (Rain.Config.normalize ⟨10, 5, 0, Fr.ofInt 0⟩).Width = 48 :=
  ⟨(config_floors.1 ⟨10, 5, 0, []⟩).1 (by decide),
   (config_floors.1 ⟨10, 5, 0, []⟩).2.1 (by decide),
   (config_floors.1 ⟨10, 5, 0, []⟩).2.2.1 (by decide),
   (config_floors.2.1 ⟨10, 5, 0, Fr.ofInt 0⟩).1 (by decide)⟩

namespace Rain

theorem emitSplashLoop_length (x : Int) (baseY : Fr) (n : Nat) (splashes : List Splash)
    (rng : Rng) :
    ((emitSplashLoop x baseY n splashes rng).1).length = splashes.length + n := by
  induction n generalizing splashes rng with
  | zero => simp [emitSplashLoop]
  | succ m ih =>
    rw [emitSplashLoop, ih]
    simp
    omega

theorem emitSplashLoop_append (x : Int) (baseY : Fr) (n : Nat) (splashes : List Splash)
    (rng : Rng) :
    ∃ t, (emitSplashLoop x baseY n splashes rng).1 = splashes ++ t := by
  induction n generalizing splashes rng with
  | zero => exact ⟨[], by simp [emitSplashLoop]⟩
  | succ m ih =>
    rw [emitSplashLoop]
    have step : ∀ (el : Splash) (rng' : Rng),
        ∃ t, (emitSplashLoop x baseY m (splashes ++ [el]) rng').1 = splashes ++ t := by
      intro el rng'
      obtain ⟨t, ht⟩ := ih (splashes ++ [el]) rng'
      exact ⟨[el] ++ t, by rw [ht, List.append_assoc]⟩
    exact step _ _

theorem emitSplash_append (splashes : List Splash) (x height : Int) (rng : Rng) :
    ∃ t, (emitSplash splashes x height rng).1 = splashes ++ t := by
  unfold emitSplash
  exact emitSplashLoop_append _ _ _ _ _

theorem streamRowStep_append (height width : Int) (palette : List String) (s : Stream)
    (frame : Nat) (head column : Int) (st : DrawSt) (i : Nat) :
    ∃ t, (streamRowStep height width palette s frame head column st i).splashes
      = st.splashes ++ t := by
  unfold streamRowStep
  dsimp only
  split
  · exact ⟨[], by simp⟩
  · split
    · exact emitSplash_append _ _ _ _
    · exact ⟨[], by simp⟩

theorem drawStreamOne_append (sinA : Fr → Fr) (height width : Int) (frame : Nat)
    (st : DrawSt) (s : Stream) :
    ∃ t, (drawStreamOne sinA height width frame st s).splashes = st.splashes ++ t := by
  unfold drawStreamOne
  dsimp only
  refine foldl_hold (P := fun (b : DrawSt) => ∃ t, b.splashes = st.splashes ++ t) _ _ _ ?_
    ⟨[], by simp⟩
  intro b i hi hP
  obtain ⟨t, ht⟩ := hP
  obtain ⟨u, hu⟩ := streamRowStep_append height width _ s frame _ _ b i
  exact ⟨t ++ u, by rw [hu, ht, List.append_assoc]⟩

theorem streamRowStep_quiet (height width : Int) (palette : List String) (s : Stream)
    (frame : Nat) (column : Int) (st : DrawSt) (i : Nat)
    (hi : i < s.length.toNat) (hno : ¬emitsAt height s) :
    (streamRowStep height width palette s frame (Fr.trunc s.head) column st i).splashes
        = st.splashes ∧
    (streamRowStep height width palette s frame (Fr.trunc s.head) column st i).rng
        = st.rng := by
  unfold streamRowStep
  dsimp only
  split
  · exact ⟨rfl, rfl⟩
  · rename_i hbounds
    split
    · rename_i hemit
      exfalso
      apply hno
      obtain ⟨hi0, hy2⟩ := hemit
      subst hi0
      simp only [Nat.cast_zero, sub_zero] at hbounds hy2
      push_neg at hbounds
      exact ⟨by omega, by omega, by omega, by omega⟩
    · exact ⟨rfl, rfl⟩

theorem drawStreamOne_quiet (sinA : Fr → Fr) (height width : Int) (frame : Nat)
    (st : DrawSt) (s : Stream) (hno : ¬emitsAt height s) :
    (drawStreamOne sinA height width frame st s).splashes = st.splashes ∧
    (drawStreamOne sinA height width frame st s).rng = st.rng := by
  unfold drawStreamOne
  dsimp only
  refine foldl_hold (P := fun (b : DrawSt) => b.splashes = st.splashes ∧ b.rng = st.rng) _ _ _ ?_
    ⟨rfl, rfl⟩
  intro b i hi hP
  have hi' : i < s.length.toNat := List.mem_range.mp hi
  obtain ⟨h1, h2⟩ := streamRowStep_quiet height width _ s frame _ b i hi' hno
  exact ⟨h1.trans hP.1, h2.trans hP.2⟩

theorem emitSplash_length (splashes : List Splash) (x height : Int) (rng : Rng) :
    ((emitSplash splashes x height rng).1).length
      = splashes.length + (2 + rng.ints.headD 0 % 3) := by
  unfold emitSplash
  dsimp only
  rw [emitSplashLoop_length]
  rfl

theorem emitSplashLoop_drawn (x : Int) (baseY : Fr) (n : Nat) (splashes : List Splash)
    (rng : Rng) :
    ((emitSplashLoop x baseY n splashes rng).2).drawn = rng.drawn + 5 * n := by
  induction n generalizing splashes rng with
  | zero => simp [emitSplashLoop]
  | succ m ih =>
    rw [emitSplashLoop, ih]
    simp only [Rng.float, Rng.intn]
    omega

theorem emitSplash_drawn (splashes : List Splash) (x height : Int) (rng : Rng) :
    rng.drawn < ((emitSplash splashes x height rng).2).drawn := by
  unfold emitSplash
  dsimp only
  rw [emitSplashLoop_drawn]
  simp only [Rng.intn]
  omega

theorem keepSplash_iff (width height : Int) (sp : Splash) :
    keepSplash width height sp = true ↔ survives width height sp := by
  unfold keepSplash survives
  simp [not_or, and_assoc]

theorem streamRowStep_mono (height width : Int) (palette : List String) (s : Stream)
    (frame : Nat) (head column : Int) (st : DrawSt) (i : Nat) :
    st.splashes.length
        ≤ (streamRowStep height width palette s frame head column st i).splashes.length ∧
    st.rng.drawn
        ≤ (streamRowStep height width palette s frame head column st i).rng.drawn := by
  unfold streamRowStep
  dsimp only
  split
  · exact ⟨Nat.le_refl _, Nat.le_refl _⟩
  · split
    · constructor
      · rw [emitSplash_length]
        omega
      · exact Nat.le_of_lt (emitSplash_drawn _ _ _ _)
    · exact ⟨Nat.le_refl _, Nat.le_refl _⟩

theorem streamRowStep_zero_emits (height width : Int) (palette : List String)
    (s : Stream) (frame : Nat) (column : Int) (st : DrawSt)
    (hemit : emitsAt height s) :
    st.splashes.length
        < (streamRowStep height width palette s frame (Fr.trunc s.head) column
            st 0).splashes.length ∧
    st.rng.drawn
        < (streamRowStep height width palette s frame (Fr.trunc s.head) column
            st 0).rng.drawn := by
  obtain ⟨h1, h2, h3, h4⟩ := hemit
  unfold streamRowStep
  dsimp only
  simp only [Nat.cast_zero, sub_zero]
  rw [if_neg (by omega), if_pos ⟨True.intro, h4⟩]
  constructor
  · rw [emitSplash_length]
    omega
  · exact emitSplash_drawn _ _ _ _

theorem foldl_rowStep_mono (height width : Int) (palette : List String) (s : Stream)
    (frame : Nat) (head column : Int) (l : List Nat) (st : DrawSt) :
    st.splashes.length
        ≤ ((l.foldl (streamRowStep height width palette s frame head column)
            st)).splashes.length ∧
    st.rng.drawn
        ≤ (l.foldl (streamRowStep height width palette s frame head column)
            st).rng.drawn := by
  refine foldl_hold (P := fun (b : DrawSt) =>
      st.splashes.length ≤ b.splashes.length ∧ st.rng.drawn ≤ b.rng.drawn) _ _ _ ?_
    ⟨Nat.le_refl _, Nat.le_refl _⟩
  intro b i hi hP
  obtain ⟨m1, m2⟩ := streamRowStep_mono height width palette s frame head column b i
  exact ⟨hP.1.trans m1, hP.2.trans m2⟩

theorem drawStreamOne_mono (sinA : Fr → Fr) (height width : Int) (frame : Nat)
    (st : DrawSt) (s : Stream) :
    st.splashes.length ≤ (drawStreamOne sinA height width frame st s).splashes.length ∧
    st.rng.drawn ≤ (drawStreamOne sinA height width frame st s).rng.drawn := by
  unfold drawStreamOne
  dsimp only
  exact foldl_rowStep_mono _ _ _ _ _ _ _ _ _

theorem drawStreamOne_emits (sinA : Fr → Fr) (height width : Int) (frame : Nat)
    (st : DrawSt) (s : Stream) (hemit : emitsAt height s) :
    st.splashes.length < (drawStreamOne sinA height width frame st s).splashes.length ∧
    st.rng.drawn < (drawStreamOne sinA height width frame st s).rng.drawn := by
  obtain ⟨m, hm⟩ : ∃ m, s.length.toNat = m + 1 := by
    have := hemit.1
    exact ⟨s.length.toNat - 1, by omega⟩
  unfold drawStreamOne
  dsimp only
  rw [hm, List.range_succ_eq_map, List.foldl_cons]
  obtain ⟨s1, s2⟩ := streamRowStep_zero_emits height width _ s frame _ st hemit
  exact ⟨lt_of_lt_of_le s1 (foldl_rowStep_mono _ _ _ _ _ _ _ _ _).1,
         lt_of_lt_of_le s2 (foldl_rowStep_mono _ _ _ _ _ _ _ _ _).2⟩

theorem foldl_drawOne_mono (sinA : Fr → Fr) (height width : Int) (frame : Nat)
    (l : List Stream) (st : DrawSt) :
    st.splashes.length
        ≤ ((l.foldl (drawStreamOne sinA height width frame) st)).splashes.length ∧
    st.rng.drawn ≤ (l.foldl (drawStreamOne sinA height width frame) st).rng.drawn := by
  refine foldl_hold (P := fun (b : DrawSt) =>
      st.splashes.length ≤ b.splashes.length ∧ st.rng.drawn ≤ b.rng.drawn) _ _ _ ?_
    ⟨Nat.le_refl _, Nat.le_refl _⟩
  intro b s hs hP
  obtain ⟨m1, m2⟩ := drawStreamOne_mono sinA height width frame b s
  exact ⟨hP.1.trans m1, hP.2.trans m2⟩

end Rain

/-- C7 counterexample: rain's `drawStreams` — part of the scene's Draw
    phase — is not mutation-free: with a stream whose head is in the
    bottom two rows it appends new splashes to the entity collection and
    consumes shared random state, refuting the claim that Draw never
    mutates entity collections nor consumes shared randomness. -/
theorem drawStreams_mutates_cex :
    ¬((Rain.drawStreams Rain.sinZero (Rain.newGrid 48 24) [Rain.streamHit] 0 []
          Rain.rng0).splashes = [] ∧
      (Rain.drawStreams Rain.sinZero (Rain.newGrid 48 24) [Rain.streamHit] 0 []
          Rain.rng0).rng = Rain.rng0) := by
  decide

/-- C7 amended: in the embedding (with `math.Sin` and the generator passed
    as oracles) `drawStreams` is a deterministic function of the scene
    state and frame index, and it mutates only the splash collection —
    by appending — and the random state; it appends (and consumes draws
    from the shared generator) exactly when some stream's head row lies
    within the bottom two on-screen rows: whenever such a stream exists
    the splash collection strictly grows and the generator's draw count
    strictly increases, and whenever none exists both are left completely
    unchanged. -/
theorem drawStreams_splash_discipline (sinA : Fr → Fr) (grid : Rain.Grid)
    (streams : List Rain.Stream) (frame : Nat) (splashes : List Rain.Splash)
    (rng : Rain.Rng) :
    (∃ t, (Rain.drawStreams sinA grid streams frame splashes rng).splashes
        = splashes ++ t) ∧
    ((∃ s ∈ streams, Rain.emitsAt (grid.length : Int) s) →
      splashes.length
          < (Rain.drawStreams sinA grid streams frame splashes rng).splashes.length ∧
      rng.drawn < (Rain.drawStreams sinA grid streams frame splashes rng).rng.drawn) ∧
    ((∀ s ∈ streams, ¬Rain.emitsAt (grid.length : Int) s) →
      (Rain.drawStreams sinA grid streams frame splashes rng).splashes = splashes ∧
      (Rain.drawStreams sinA grid streams frame splashes rng).rng = rng) := by
  unfold Rain.drawStreams
  dsimp only
  refine ⟨?_, ?_, ?_⟩
  · refine foldl_hold (P := fun (b : Rain.DrawSt) => ∃ t, b.splashes = splashes ++ t) _ _ _ ?_
      ⟨[], by simp⟩
    intro b s hs hP
    obtain ⟨t, ht⟩ := hP
    obtain ⟨u, hu⟩ := Rain.drawStreamOne_append sinA _ _ frame b s
    exact ⟨t ++ u, by rw [hu, ht, List.append_assoc]⟩
  · rintro ⟨s, hs, hemit⟩
    obtain ⟨l1, l2, rfl⟩ := List.append_of_mem hs
    rw [List.foldl_append, List.foldl_cons]
    have hA := Rain.foldl_drawOne_mono sinA (grid.length : Int)
      ((grid.headD []).length : Int) frame l1 (⟨grid, splashes, rng⟩ : Rain.DrawSt)
    have hB := Rain.drawStreamOne_emits sinA (grid.length : Int)
      ((grid.headD []).length : Int) frame
      (l1.foldl (Rain.drawStreamOne sinA (grid.length : Int)
        ((grid.headD []).length : Int) frame) (⟨grid, splashes, rng⟩ : Rain.DrawSt))
      s hemit
    have hC := Rain.foldl_drawOne_mono sinA (grid.length : Int)
      ((grid.headD []).length : Int) frame l2
      (Rain.drawStreamOne sinA (grid.length : Int) ((grid.headD []).length : Int) frame
        (l1.foldl (Rain.drawStreamOne sinA (grid.length : Int)
          ((grid.headD []).length : Int) frame) (⟨grid, splashes, rng⟩ : Rain.DrawSt)) s)
    exact ⟨lt_of_le_of_lt hA.1 (lt_of_lt_of_le hB.1 hC.1),
           lt_of_le_of_lt hA.2 (lt_of_lt_of_le hB.2 hC.2)⟩
  · intro hq
    refine foldl_hold (P := fun (b : Rain.DrawSt) => b.splashes = splashes ∧ b.rng = rng) _ _ _ ?_
      ⟨rfl, rfl⟩
    intro b s hs hP
    obtain ⟨h1, h2⟩ := Rain.drawStreamOne_quiet sinA _ _ frame b s (hq s hs)
    exact ⟨h1.trans hP.1, h2.trans hP.2⟩

/-- Witness for the amended C7: a stream whose head is at row 23 of 24
    makes `drawStreams` grow the splash collection and advance the random
    oracle, while a quiet stream (head at row 5 of 24) leaves both
    completely untouched. -/
theorem drawStreams_splash_discipline_witness :
    (∃ t, (Rain.drawStreams Rain.sinZero (Rain.newGrid 48 24) [Rain.streamQuiet] 0 []
        Rain.rng0).splashes = [] ++ t) ∧
    (0 < (Rain.drawStreams Rain.sinZero (Rain.newGrid 48 24) [Rain.streamHit] 0 []
        Rain.rng0).splashes.length ∧
     Rain.rng0.drawn < (Rain.drawStreams Rain.sinZero (Rain.newGrid 48 24)
        [Rain.streamHit] 0 [] Rain.rng0).rng.drawn) ∧
    ((Rain.drawStreams Rain.sinZero (Rain.newGrid 48 24) [Rain.streamQuiet] 0 []
        Rain.rng0).splashes = [] ∧
     (Rain.drawStreams Rain.sinZero (Rain.newGrid 48 24) [Rain.streamQuiet] 0 []
        Rain.rng0).rng = Rain.rng0) :=
  ⟨(drawStreams_splash_discipline Rain.sinZero (Rain.newGrid 48 24) [Rain.streamQuiet]
      0 [] Rain.rng0).1,
   (drawStreams_splash_discipline Rain.sinZero (Rain.newGrid 48 24) [Rain.streamHit]
      0 [] Rain.rng0).2.1 ⟨Rain.streamHit, by decide, by decide⟩,
   (drawStreams_splash_discipline Rain.sinZero (Rain.newGrid 48 24) [Rain.streamQuiet]
      0 [] Rain.rng0).2.2 (by decide)⟩

/-- C8 counterexample: the rain scene's splash population is not constant —
    `updateSplashes` removes a splash whose life counter expires, so the
    working set shrinks (and `emitSplash` grows it), refuting the claim
    that every entity kind keeps a constant population. -/
theorem updateSplashes_shrinks_cex :
    (Rain.updateSplashes [Rain.splashDying] 48 24).length
      ≠ ([Rain.splashDying] : List Rain.Splash).length := by
  decide

/-- C8 amended: the *stream* population is constant — `updateStreams`
    resets expired streams in place and never changes their count — but
    the *splash* population is dynamic: each `emitSplash` call appends
    exactly `2 + rand.Intn(3)` splashes (so at least two), and
    `updateSplashes` never adds a splash and keeps an advanced splash
    exactly when it is within the horizontal bounds, above the floor row,
    and still alive — every splash failing one of those criteria is
    removed. -/
theorem entity_population_discipline :
    (∀ (piA : Fr) (streams : List Rain.Stream) (width height : Int) (rng : Rain.Rng),
        ((Rain.updateStreams piA streams width height rng).1).length = streams.length) ∧
    (∀ (splashes : List Rain.Splash) (x height : Int) (rng : Rain.Rng),
        ((Rain.emitSplash splashes x height rng).1).length
            = splashes.length + (2 + rng.ints.headD 0 % 3) ∧
        splashes.length + 2 ≤ ((Rain.emitSplash splashes x height rng).1).length) ∧
    (∀ (splashes : List Rain.Splash) (width height : Int),
        (Rain.updateSplashes splashes width height).length ≤ splashes.length ∧
        (∀ sp ∈ Rain.updateSplashes splashes width height,
            Rain.survives width height sp) ∧
        (∀ sp ∈ splashes, Rain.survives width height (Rain.stepSplash sp) →
            Rain.stepSplash sp ∈ Rain.updateSplashes splashes width height)) := by
  refine ⟨?_, ?_, ?_⟩
  · intro piA streams width height rng
    induction streams generalizing rng with
    | nil => rfl
    | cons s rest ih => simp [Rain.updateStreams, ih]
  · intro splashes x height rng
    refine ⟨Rain.emitSplash_length splashes x height rng, ?_⟩
    rw [Rain.emitSplash_length]
    omega
  · intro splashes width height
    refine ⟨?_, ?_, ?_⟩
    · unfold Rain.updateSplashes
      calc (List.filter _ _).length
          ≤ (splashes.map Rain.stepSplash).length := List.length_filter_le _ _
        _ = splashes.length := List.length_map _ _
    · intro sp hsp
      unfold Rain.updateSplashes at hsp
      exact (Rain.keepSplash_iff width height sp).mp (List.mem_filter.mp hsp).2
    · intro sp hsp hsv
      unfold Rain.updateSplashes
      exact List.mem_filter.mpr
        ⟨List.mem_map_of_mem _ hsp, (Rain.keepSplash_iff width height _).mpr hsv⟩

/-- Witness for the amended C8: a live in-bounds splash survives
    `updateSplashes` (its advanced copy is retained). -/
theorem entity_population_discipline_witness :
    Rain.stepSplash Rain.splashLive ∈ Rain.updateSplashes [Rain.splashLive] 48 24 :=
  (entity_population_discipline.2.2 [Rain.splashLive] 48 24).2.2 Rain.splashLive
    (by decide) (by decide)
